import Mathlib

/-!
Verification development for the EFIO edge-gateway core.

Shallow embedding of the Python sources under `efio_daemon/` and `api/`:
pure Lean functions mirror the Python functions, stateful classes become
explicit state records with step functions, wall-clock time is an explicit
rational parameter, and fallible calls return `Except`/`Option` or take the
call outcome as an explicit argument.  All definitions are executable.
-/

namespace EFIO

/-! ## Resilience primitives (efio_daemon/resilience.py) -/

/-- States of `resilience.CircuitState`: `closed`, `open`, `half_open`.
The Python value `OPEN` is rendered `opened` because `open` is a Lean
keyword. -/
inductive CircuitState where
  | closed
  | opened
  | halfOpen
deriving DecidableEq, Repr

/-- State of `resilience.CircuitBreaker`: configuration
(`failure_threshold`, `timeout`) plus the mutable fields
(`failure_count`, `last_failure_time`, `state`).  Wall-clock times are
rationals (seconds, as returned by `time.time()`). -/
structure CircuitBreaker where
  failure_threshold : ℕ
  timeout : ℚ
  failure_count : ℕ
  last_failure_time : Option ℚ
  state : CircuitState
deriving DecidableEq, Repr

/-- A freshly constructed breaker (`CircuitBreaker.__init__`):
`failure_count = 0`, `last_failure_time = None`, `state = CLOSED`. -/
def CircuitBreaker.mk0 (threshold : ℕ) (timeout : ℚ) : CircuitBreaker :=
  { failure_threshold := threshold
    timeout := timeout
    failure_count := 0
    last_failure_time := none
    state := .closed }

/-- `CircuitBreaker._should_attempt_reset`: true when a last failure time
exists and `now - last_failure_time >= timeout`. -/
def CircuitBreaker.shouldAttemptReset (b : CircuitBreaker) (now : ℚ) : Bool :=
  match b.last_failure_time with
  | none => false
  | some t => now - t ≥ b.timeout

/-- `CircuitBreaker._on_success`: zero the failure count and close. -/
def CircuitBreaker.onSuccess (b : CircuitBreaker) : CircuitBreaker :=
  { b with failure_count := 0, state := .closed }

/-- `CircuitBreaker._on_failure` at time `now`: increment the failure
count, stamp `last_failure_time`, and open the breaker exactly when the
new count reaches `failure_threshold` (otherwise the state is kept). -/
def CircuitBreaker.onFailure (b : CircuitBreaker) (now : ℚ) : CircuitBreaker :=
  let fc := b.failure_count + 1
  { b with
    failure_count := fc
    last_failure_time := some now
    state := if b.failure_threshold ≤ fc then .opened else b.state }

/-- `CircuitBreaker.reset`: zero the count, close, clear the stamp. -/
def CircuitBreaker.reset (b : CircuitBreaker) : CircuitBreaker :=
  { b with failure_count := 0, state := .closed, last_failure_time := none }

/-- Outcome of invoking a guarded function once: normal return, a raise of
the breaker's `expected_exception`, or a raise of any other exception. -/
inductive CallOutcome where
  | ok
  | errExpected
  | errFatal
deriving DecidableEq, Repr

/-- Result of one pass through the wrapper produced by
`CircuitBreaker.call`.  `rejected` is the fail-fast path: the wrapper
raised its own `Circuit breaker open` exception and the guarded function
was not invoked. -/
inductive CallResult where
  | success
  | failureRaised
  | fatalRaised
  | rejected
deriving DecidableEq, Repr

/-- Body of the wrapper after the open-state gate: invoke the guarded
function; on success run `_on_success`, on the expected exception run
`_on_failure` and re-raise, on any other exception re-raise untouched. -/
def CircuitBreaker.execute (b : CircuitBreaker) (now : ℚ) (outcome : CallOutcome) :
    CallResult × CircuitBreaker :=
  match outcome with
  | .ok => (.success, b.onSuccess)
  | .errExpected => (.failureRaised, b.onFailure now)
  | .errFatal => (.fatalRaised, b)

/-- One call through the `CircuitBreaker.call` wrapper at time `now`.
If the breaker is open and the timeout has not elapsed the call is
rejected without invoking the guarded function; if the timeout has
elapsed the state moves to half-open and the function runs. -/
def CircuitBreaker.callStep (b : CircuitBreaker) (now : ℚ) (outcome : CallOutcome) :
    CallResult × CircuitBreaker :=
  if b.state = .opened then
    if b.shouldAttemptReset now then
      CircuitBreaker.execute { b with state := .halfOpen } now outcome
    else
      (.rejected, b)
  else
    CircuitBreaker.execute b now outcome

/-- Fold a list of call times through the breaker, every call failing with
the expected exception (the scenario of spec §8, breaker invariant). -/
def CircuitBreaker.runFailures (b : CircuitBreaker) (ts : List ℚ) : CircuitBreaker :=
  ts.foldl (fun b t => (b.callStep t .errExpected).2) b

/-! ## retry_with_backoff (efio_daemon/resilience.py) -/

/-- Result of one attempt of the function wrapped by
`retry_with_backoff`: success, a raise of the configured
`expected_exception`, or any other exception.  Error payloads are drawn
from an arbitrary type `ε`, values from `α`. -/
inductive AttemptResult (α ε : Type) where
  | ok (v : α)
  | errExpected (e : ε)
  | errFatal (e : ε)
deriving DecidableEq, Repr

/-- Final outcome of the retry wrapper. -/
inductive RetryResult (α ε : Type) where
  | ok (v : α)
  | raisedExpected (e : ε)
  | raisedFatal (e : ε)
deriving DecidableEq, Repr

/-- Observable trace of one run of the retry wrapper: its outcome, the
number of times the wrapped function was invoked, and the list of sleep
durations (seconds) between consecutive attempts, in order. -/
structure RetryRun (α ε : Type) where
  result : RetryResult α ε
  calls : ℕ
  sleeps : List ℚ
deriving DecidableEq, Repr

/-- The loop of `retry_with_backoff`, recursing on the number of retries
still allowed.  `attempt` is the 0-based index of the current attempt and
`delay` the current undamped backoff value; between attempts the wrapper
sleeps `min delay max_delay` and then multiplies `delay` by the base. -/
def retryGo (f : ℕ → AttemptResult α ε) (max_delay exponential_base : ℚ) :
    ℕ → ℕ → ℚ → RetryRun α ε
  | attempt, 0, _ =>
    match f attempt with
    | .ok v => ⟨.ok v, 1, []⟩
    | .errExpected e => ⟨.raisedExpected e, 1, []⟩
    | .errFatal e => ⟨.raisedFatal e, 1, []⟩
  | attempt, remaining + 1, delay =>
    match f attempt with
    | .ok v => ⟨.ok v, 1, []⟩
    | .errExpected _ =>
      let rest := retryGo f max_delay exponential_base (attempt + 1) remaining
        (delay * exponential_base)
      ⟨rest.result, rest.calls + 1, min delay max_delay :: rest.sleeps⟩
    | .errFatal e => ⟨.raisedFatal e, 1, []⟩

/-- `retry_with_backoff(max_retries, initial_delay, max_delay,
exponential_base)` applied to a function whose attempt `k` yields
`f k`: run attempts `0 .. max_retries`, sleeping between them. -/
def retry_with_backoff (max_retries : ℕ) (initial_delay max_delay exponential_base : ℚ)
    (f : ℕ → AttemptResult α ε) : RetryRun α ε :=
  retryGo f max_delay exponential_base 0 max_retries initial_delay

/-! ## HealthStatus (efio_daemon/resilience.py) -/

/-- `HealthStatus.get_overall_status` over the registry snapshot (component
name, status string): `unknown` on an empty registry, `healthy` when every
status equals `healthy`, else `unhealthy` when some status equals
`unhealthy`, else `degraded`. -/
def get_overall_status (components : List (String × String)) : String :=
  if components.isEmpty then "unknown"
  else if components.all (fun c => c.2 = "healthy") then "healthy"
  else if components.any (fun c => c.2 = "unhealthy") then "unhealthy"
  else "degraded"

/-- The overall-status rule as the specification words it: unhealthy if
any component is unhealthy, else degraded if any component is degraded,
else healthy.  Stated for comparison with `get_overall_status`. -/
def specOverallStatus (components : List (String × String)) : String :=
  if components.any (fun c => c.2 = "unhealthy") then "unhealthy"
  else if components.any (fun c => c.2 = "degraded") then "degraded"
  else "healthy"

/-! ## CAN devices and liveness (efio_daemon/can_manager.py) -/

/-- `can_manager.CANDevice`: configuration plus runtime counters.
`messages` (message definitions) and `last_seen` (an ISO string shadowing
`last_rx_time`) are carried as data; `timeoutLogged` renders the private
flag `_timeout_logged`. -/
structure CANDevice where
  id : String
  name : String
  can_id : ℕ
  extended : Bool
  enabled : Bool
  rx_count : ℕ
  tx_count : ℕ
  last_seen : Option String
  last_rx_time : Option ℚ
  timeout_threshold : ℚ
  timeoutLogged : Bool
deriving DecidableEq, Repr

/-- `CANDevice.__init__` defaults: counters zero, never seen,
`timeout_threshold = 30`, `_timeout_logged = False`. -/
def CANDevice.mk0 (device_id name : String) (can_id : ℕ)
    (extended : Bool := false) (enabled : Bool := true) : CANDevice :=
  { id := device_id, name := name, can_id := can_id, extended := extended
    enabled := enabled, rx_count := 0, tx_count := 0, last_seen := none
    last_rx_time := none, timeout_threshold := 30, timeoutLogged := false }

/-- `CANDevice.is_alive` at time `now`: `False` when no frame was ever
received, otherwise `now - last_rx_time < timeout_threshold`. -/
def CANDevice.is_alive (d : CANDevice) (now : ℚ) : Bool :=
  match d.last_rx_time with
  | none => false
  | some r => now - r < d.timeout_threshold

/-- The slice of `CANManager` state that the per-device liveness logic
touches: one tracked device, the global `device_timeouts` statistic, and
the device's circuit breaker (created on first timeout with threshold 3,
timeout 60). -/
structure CANLivenessState where
  device : CANDevice
  device_timeouts : ℕ
  breaker : Option CircuitBreaker
deriving DecidableEq, Repr

/-- Events affecting one device's liveness, each stamped with the wall
clock: a matching RX frame handled by `_handle_rx_message`, or one pass of
the per-device body of `_liveness_loop`. -/
inductive CANEvent where
  | rxFrame (t : ℚ)
  | livenessCheck (t : ℚ)
deriving DecidableEq, Repr

/-- `CANManager._handle_device_timeout` for the tracked device at time
`t`: on the first detection of the lapse (flag clear) increment the global
`device_timeouts` counter and set `_timeout_logged`; on every detection
record a failure on the device's breaker (creating it if absent). -/
def handleDeviceTimeout (s : CANLivenessState) (t : ℚ) : CANLivenessState :=
  let counted :=
    if s.device.timeoutLogged then s
    else { s with
           device := { s.device with timeoutLogged := true }
           device_timeouts := s.device_timeouts + 1 }
  let b := (counted.breaker.getD (CircuitBreaker.mk0 3 60)).onFailure t
  { counted with breaker := some b }

/-- One step of the per-device liveness logic
(`_liveness_loop` body and `_handle_rx_message` device update).
A frame from the device's CAN id updates counters, `last_rx_time`, and
records a breaker success; a liveness check skips disabled or never-seen
devices, calls `_handle_device_timeout` when
`now - last_rx_time > timeout_threshold`, and otherwise clears the
`_timeout_logged` flag (recovery). -/
def canLivenessStep (s : CANLivenessState) (e : CANEvent) : CANLivenessState :=
  match e with
  | .rxFrame t =>
    if s.device.enabled then
      { s with
        device := { s.device with
                    rx_count := s.device.rx_count + 1
                    last_rx_time := some t }
        breaker := s.breaker.map CircuitBreaker.onSuccess }
    else s
  | .livenessCheck t =>
    if s.device.enabled then
      match s.device.last_rx_time with
      | none => s
      | some r =>
        if t - r > s.device.timeout_threshold then handleDeviceTimeout s t
        else { s with device := { s.device with timeoutLogged := false } }
    else s

/-- Run a trace of liveness events. -/
def canLivenessRun (s : CANLivenessState) (es : List CANEvent) : CANLivenessState :=
  es.foldl canLivenessStep s

/-- The lapse observation a single event contributes: `some true` when a
liveness check examines the device (enabled, seen before) and finds
`now - last_rx_time > timeout_threshold`, `some false` when the check
finds the device alive, `none` when the event is a frame or the check
skips the device. -/
def lapseObs (s : CANLivenessState) (e : CANEvent) : Option Bool :=
  match e with
  | .rxFrame _ => none
  | .livenessCheck t =>
    if s.device.enabled then
      match s.device.last_rx_time with
      | none => none
      | some r => some (decide (t - r > s.device.timeout_threshold))
    else none

/-- The sequence of lapse observations made by the liveness checks along a
trace. -/
def lapseObsSeq (s : CANLivenessState) : List CANEvent → List Bool
  | [] => []
  | e :: es =>
    match lapseObs s e with
    | some b => b :: lapseObsSeq (canLivenessStep s e) es
    | none => lapseObsSeq (canLivenessStep s e) es

/-- Number of maximal contiguous blocks of `true` in a boolean sequence,
given the truth value preceding the sequence. -/
def trueRunsFrom (prev : Bool) : List Bool → ℕ
  | [] => 0
  | b :: bs => (if b && !prev then 1 else 0) + trueRunsFrom b bs

/-- Number of maximal contiguous blocks of `true` in a boolean sequence. -/
def trueRuns (l : List Bool) : ℕ := trueRunsFrom false l

/-! ## Bitrate autodetection (api/can_routes.py, detect_bitrate) -/

/-- The candidate list of `detect_bitrate`, most common first. -/
def test_bitrates : List ℕ := [125000, 250000, 500000, 100000, 50000]

/-- Quality score computed by `detect_bitrate` for one candidate over the
5-second window: `valid_msgs * (valid_msgs / sample_time) - errors * 5`
with `sample_time = 5`. -/
def bitrateQuality (msgs errors : ℕ) : ℚ :=
  (msgs : ℚ) * ((msgs : ℚ) / 5) - (errors : ℚ) * 5

/-- The score the specification claims: `observed_messages - 5 * observed_errors`. -/
def claimQuality (msgs errors : ℕ) : ℚ :=
  (msgs : ℚ) - 5 * (errors : ℚ)

/-- The selection loop of `detect_bitrate`, parameterised by the scoring
function.  `obs b = some (msgs, errors)` is the observation for candidate
`b`; `none` means the connect/sample attempt raised and the candidate was
skipped.  The accumulator mirrors `(detected, best_quality)` with initial
value `(None, 0)`; a candidate replaces the best exactly when its score
strictly exceeds the current best and it saw at least 10 messages. -/
def detectStep (score : ℕ → ℕ → ℚ) (obs : ℕ → Option (ℕ × ℕ))
    (acc : Option ℕ × ℚ) (b : ℕ) : Option ℕ × ℚ :=
  match obs b with
  | none => acc
  | some (msgs, errors) =>
    let q := score msgs errors
    if q > acc.2 ∧ 10 ≤ msgs then (some b, q) else acc

/-- The whole selection loop: fold `detectStep` over the candidates from
`(None, 0)`. -/
def detectFold (score : ℕ → ℕ → ℚ) (obs : ℕ → Option (ℕ × ℕ)) :
    Option ℕ × ℚ :=
  test_bitrates.foldl (detectStep score obs) (none, 0)

/-- Final answer of `detect_bitrate`: the selected candidate when one
exists and the best quality exceeds 5, else `none`
(`{"detected": false}`). -/
def detectResult (score : ℕ → ℕ → ℚ) (obs : ℕ → Option (ℕ × ℕ)) : Option ℕ :=
  if (detectFold score obs).1.isSome ∧ (detectFold score obs).2 > 5
  then (detectFold score obs).1 else none

/-- `detect_bitrate` as implemented (score `bitrateQuality`). -/
def detect_bitrate (obs : ℕ → Option (ℕ × ℕ)) : Option ℕ :=
  detectResult bitrateQuality obs

/-- The detection the specification describes (score `claimQuality`). -/
def claimDetectBitrate (obs : ℕ → Option (ℕ × ℕ)) : Option ℕ :=
  detectResult claimQuality obs

/-! ## Hex rendering and CAN log entries -/

/-- Uppercase hexadecimal digit for `n < 16` (used by the `%X` format
renderings below). -/
def hexDigitU (n : ℕ) : Char :=
  ['0', '1', '2', '3', '4', '5', '6', '7', '8', '9',
   'A', 'B', 'C', 'D', 'E', 'F'].getD n '0'

/-- Python `f-string` format `%02X` for a data byte (exact for
`b < 256`, the range of CAN data bytes). -/
def hex02 (b : ℕ) : String :=
  String.mk [hexDigitU (b / 16 % 16), hexDigitU (b % 16)]

/-- Python `f-string` format `0x%03X` for a CAN identifier (exact for
`n < 4096`, covering all 11-bit identifiers). -/
def hex0x03 (n : ℕ) : String :=
  "0x" ++ String.mk [hexDigitU (n / 256 % 16), hexDigitU (n / 16 % 16), hexDigitU (n % 16)]

/-- The RX log-entry dict produced by `CANManager._handle_rx_message` and
fanned out to bridge subscribers: `{timestamp, direction, can_id, dlc,
data, extended}`.  The direction is always the string `RX` for delivered
frames and is omitted. -/
structure CANLogEntry where
  timestamp : String
  can_id : ℕ
  dlc : ℕ
  data : List ℕ
  extended : Bool
deriving DecidableEq, Repr

/-- One CAN-to-MQTT bridge mapping dict.  The two bridge classes read
different keys of the same dict: `can_mqtt_bridge.CANMQTTBridge` reads
`rate_limit_ms` (default 0), `modbus_mqtt_bridge.CANMQTTBridge` reads
`publish_on_change` (default True) and `min_interval_ms` (default 0).
All keys are carried here with the defaults already applied. -/
structure CANMapping where
  id : String
  name : String
  can_id : ℕ
  topic : String
  enabled : Bool
  publish_on_change : Bool
  rate_limit_ms : ℚ
  min_interval_ms : ℚ
  qos : ℕ
deriving DecidableEq, Repr

/-! ## CAN→MQTT bridge wired by api/app.py (efio_daemon/can_mqtt_bridge.py)

`api.app.init_can_mqtt_bridge` instantiates this class as the CAN-MQTT
bridge.  Its `_should_publish` implements rate limiting only — it never
consults `publish_on_change` or the last published data. -/

/-- State of `can_mqtt_bridge.CANMQTTBridge` relevant to message
processing: MQTT connectivity, the mapping list, the per-mapping
`last_publish` times (dict defaulting to 0) and `message_counts`, the
global statistics counters, and the list of performed MQTT publishes
`(topic, qos, retain)` in order. -/
structure BridgeAState where
  mqtt_connected : Bool
  mappings : List CANMapping
  last_publish : String → ℚ
  message_counts : String → ℕ
  messages_received : ℕ
  messages_published : ℕ
  messages_dropped : ℕ
  publishes : List (String × ℕ × Bool)

/-- `can_mqtt_bridge.CANMQTTBridge._should_publish`: pure rate limiting.
True when `rate_limit_ms <= 0`, else when
`(now - last_publish[mapping_id]) * 1000 >= rate_limit_ms`. -/
def bridgeA_should_publish (st : BridgeAState) (m : CANMapping) (now : ℚ) : Bool :=
  if m.rate_limit_ms ≤ 0 then true
  else (now - st.last_publish m.id) * 1000 ≥ m.rate_limit_ms

/-- `can_mqtt_bridge.CANMQTTBridge._process_mapping` at time `now`:
drop (counted) when `_should_publish` is false; otherwise publish to the
mapping's topic with the mapping's QoS (default 1) and `retain = False`
— the publish succeeds exactly when the MQTT client is connected — and on
success bump the published counters and stamp `last_publish`. -/
def bridgeA_process_mapping (st : BridgeAState) (m : CANMapping) (now : ℚ) :
    BridgeAState :=
  if !bridgeA_should_publish st m now then
    { st with messages_dropped := st.messages_dropped + 1 }
  else if st.mqtt_connected then
    { st with
      messages_published := st.messages_published + 1
      message_counts := fun i => if i = m.id then st.message_counts i + 1 else st.message_counts i
      last_publish := fun i => if i = m.id then now else st.last_publish i
      publishes := st.publishes ++ [(m.topic, m.qos, false)] }
  else st

/-- `can_mqtt_bridge.CANMQTTBridge._on_can_message` at time `now`: count
the reception, then process every enabled mapping whose `can_id` matches
the frame. -/
def bridgeA_on_can_message (st : BridgeAState) (now : ℚ) (msg : CANLogEntry) :
    BridgeAState :=
  let st := { st with messages_received := st.messages_received + 1 }
  st.mappings.foldl
    (fun st m =>
      if m.enabled && m.can_id == msg.can_id then bridgeA_process_mapping st m now
      else st)
    st

/-! ## Change-detecting CAN→MQTT bridge (efio_daemon/modbus_mqtt_bridge.py)

The file `efio_daemon/modbus_mqtt_bridge.py` defines a second class also
named `CANMQTTBridge`; its `_should_publish` performs change detection on
the frame's data hex before rate limiting.  `api/app.py` imports
`ModbusMQTTBridge` from this module, a name the file does not define. -/

/-- The JSON payload dict built by
`modbus_mqtt_bridge.CANMQTTBridge._publish_to_mqtt`, kept structured
rather than serialised. -/
structure BridgeBPayload where
  can_id : String
  data : String
  dlc : ℕ
  timestamp : String
  extended : Bool
  mapping : String
deriving DecidableEq, Repr

/-- State of `modbus_mqtt_bridge.CANMQTTBridge` relevant to message
processing: the `running` flag, MQTT connectivity, the mapping list, the
`last_values` and `last_publish_times` dicts (`None` when a key is
absent), per-mapping statistics, and the performed publishes
`(topic, payload, qos, retain)` in order. -/
structure BridgeBState where
  running : Bool
  mqtt_connected : Bool
  mappings : List CANMapping
  last_values : String → Option String
  last_publish_times : String → Option ℚ
  stat_received : String → ℕ
  stat_published : String → ℕ
  stat_last_seen : String → Option String
  publishes : List (String × BridgeBPayload × ℕ × Bool)

/-- The data-hex string computed by
`modbus_mqtt_bridge.CANMQTTBridge._process_mapping`:
space-joined `%02X` renderings of `data[:dlc]`. -/
def dataHexOf (msg : CANLogEntry) : String :=
  String.intercalate " " ((msg.data.take msg.dlc).map hex02)

/-- `modbus_mqtt_bridge.CANMQTTBridge._should_publish`: when
`publish_on_change` holds and `last_values[mapping_id]` equals the current
data hex, refuse; else when `min_interval_ms / 1000 > 0` and
`now - last_publish_times.get(mapping_id, 0)` is below it, refuse; else
publish. -/
def bridgeB_should_publish (st : BridgeBState) (m : CANMapping)
    (data_hex : String) (now : ℚ) : Bool :=
  if m.publish_on_change && (st.last_values m.id == some data_hex) then false
  else
    let min_interval := m.min_interval_ms / 1000
    if min_interval > 0 && decide (now - (st.last_publish_times m.id).getD 0 < min_interval)
    then false
    else true

/-- `modbus_mqtt_bridge.CANMQTTBridge._process_mapping` at time `now`:
bump the per-mapping reception statistics, compute the data hex, consult
`_should_publish`; on go, publish the JSON payload with the mapping QoS
and `retain = False` (succeeding exactly when MQTT is connected), then
record the published value and publish time. -/
def bridgeB_process_mapping (st : BridgeBState) (m : CANMapping)
    (msg : CANLogEntry) (now : ℚ) : BridgeBState :=
  let st := { st with
    stat_received := fun i => if i = m.id then st.stat_received i + 1 else st.stat_received i
    stat_last_seen := fun i => if i = m.id then some msg.timestamp else st.stat_last_seen i }
  let data_hex := dataHexOf msg
  if !bridgeB_should_publish st m data_hex now then st
  else if st.mqtt_connected then
    let payload : BridgeBPayload :=
      { can_id := hex0x03 msg.can_id, data := data_hex, dlc := msg.dlc
        timestamp := msg.timestamp, extended := msg.extended, mapping := m.name }
    { st with
      stat_published := fun i => if i = m.id then st.stat_published i + 1 else st.stat_published i
      last_values := fun i => if i = m.id then some data_hex else st.last_values i
      last_publish_times := fun i => if i = m.id then some now else st.last_publish_times i
      publishes := st.publishes ++ [(m.topic, payload, m.qos, false)] }
  else st

/-- `modbus_mqtt_bridge.CANMQTTBridge._on_can_message` at time `now`:
return unchanged unless running and MQTT-connected, then process every
mapping whose `can_id` matches and is enabled. -/
def bridgeB_on_can_message (st : BridgeBState) (now : ℚ) (msg : CANLogEntry) :
    BridgeBState :=
  if !st.running || !st.mqtt_connected then st
  else
    st.mappings.foldl
      (fun st m =>
        if m.can_id == msg.can_id && m.enabled then bridgeB_process_mapping st m msg now
        else st)
      st

/-! ## Modbus read endpoint (api/modbus_device_routes.py) -/

/-- Exceptions raised by a Modbus transaction, as discriminated by
`classify_error`: `minimalmodbus.NoResponseError`,
`minimalmodbus.InvalidResponseError`, `serial.SerialException`, or any
other exception carrying its class name. -/
inductive ModbusExc where
  | noResponse
  | invalidResponse
  | serialExc
  | other (className : String)
deriving DecidableEq, Repr

/-- `modbus_device_routes.classify_error`. -/
def classify_error (e : ModbusExc) : String :=
  match e with
  | .noResponse => "NoResponse"
  | .invalidResponse => "InvalidResponse"
  | .serialExc => "SerialError"
  | .other className => className

/-- Slice of the module state of `modbus_device_routes` for one device:
its entry in `circuit_breakers`, whether `device_id` is in
`active_connections`, and the stored `last_connected` stamp. -/
structure ModbusRouteState where
  breaker : CircuitBreaker
  connected : Bool
  last_connected : Option String
deriving DecidableEq, Repr

/-- `modbus_device_routes.cleanup_connection`: drop the in-memory session
(and stop poller/liveness), reset the circuit breaker so reconnects can be
attempted, and null `last_connected`. -/
def cleanup_connection (s : ModbusRouteState) : ModbusRouteState :=
  { breaker := s.breaker.reset, connected := false, last_connected := none }

/-- HTTP response of the read endpoint: status code, classified error type
for 500 responses, and the result list for 200 responses. -/
structure ReadResponse where
  status : ℕ
  errType : Option String
  registers : List (ℕ × ℕ)
deriving DecidableEq, Repr

/-- `modbus_device_routes.read_registers` at time `now`.  `attempt` is
what the guarded `_do_read` transaction would produce: the ordered
`(register, value)` list, or an exception.  The endpoint first refuses
with 503 when the stored breaker state is `open` (note: via
`get_state()`, with no half-open transition), then with 400 when the
device is not connected; otherwise it runs `_do_read` under
`breaker.call` — every exception is the breaker's expected kind — and on
failure performs `cleanup_connection` and answers 500 with the classified
type. -/
def read_registers (s : ModbusRouteState) (now : ℚ)
    (attempt : Except ModbusExc (List (ℕ × ℕ))) : ReadResponse × ModbusRouteState :=
  if s.breaker.state = .opened then (⟨503, none, []⟩, s)
  else if !s.connected then (⟨400, none, []⟩, s)
  else
    match attempt with
    | .ok regs =>
      (⟨200, none, regs⟩, { s with breaker := (s.breaker.callStep now .ok).2 })
    | .error e =>
      let s1 := { s with breaker := (s.breaker.callStep now .errExpected).2 }
      (⟨500, some (classify_error e), []⟩, cleanup_connection s1)

/-- Run a sequence of read attempts, each at its own time, collecting the
responses in order. -/
def readSequence (s : ModbusRouteState) :
    List (ℚ × Except ModbusExc (List (ℕ × ℕ))) → List ReadResponse × ModbusRouteState
  | [] => ([], s)
  | (t, a) :: rest =>
    let (r, s1) := read_registers s t a
    let (rs, s2) := readSequence s1 rest
    (r :: rs, s2)

/-! ## Thread-safe I/O state (efio_daemon/thread_safe_state.py) -/

/-- Value state of `ThreadSafeState`: DI/DO vectors (Python ints), the two
simulation flags, and the Modbus summary dict (keys with optional integer
values).  The lock and the statistics counters are concurrency
bookkeeping and are not part of the value model.  The Python attribute
`_do` is rendered `do_` because `do` is a Lean keyword. -/
structure ThreadSafeState where
  di : List ℤ
  do_ : List ℤ
  simulation : Bool
  simulation_oled : Bool
  modbus : List (String × Option ℤ)
deriving DecidableEq, Repr

/-- `ThreadSafeState.__init__`. -/
def ThreadSafeState.init : ThreadSafeState :=
  { di := [0, 0, 0, 0], do_ := [0, 0, 0, 0]
    simulation := false, simulation_oled := false
    modbus := [("slave_id", some 1), ("last_register", none), ("last_value", none)] }

/-- `ThreadSafeState.set_di`: reject a channel outside `0..3` and a value
outside `{0, 1}`, else store. -/
def ThreadSafeState.set_di (s : ThreadSafeState) (channel : ℕ) (value : ℤ) :
    Except String ThreadSafeState :=
  if ¬ channel < 4 then .error "Invalid DI channel"
  else if ¬ (value = 0 ∨ value = 1) then .error "Invalid DI value"
  else .ok { s with di := s.di.set channel value }

/-- `ThreadSafeState.set_do`. -/
def ThreadSafeState.set_do (s : ThreadSafeState) (channel : ℕ) (value : ℤ) :
    Except String ThreadSafeState :=
  if ¬ channel < 4 then .error "Invalid DO channel"
  else if ¬ (value = 0 ∨ value = 1) then .error "Invalid DO value"
  else .ok { s with do_ := s.do_.set channel value }

/-- `ThreadSafeState.set_di_all`: reject unless exactly 4 values, each in
`{0, 1}`, else replace the whole vector. -/
def ThreadSafeState.set_di_all (s : ThreadSafeState) (values : List ℤ) :
    Except String ThreadSafeState :=
  if values.length ≠ 4 then .error "Expected 4 values"
  else if ¬ values.all (fun v => v = 0 ∨ v = 1) then .error "All DI values must be 0 or 1"
  else .ok { s with di := values }

/-- `ThreadSafeState.set_do_all`. -/
def ThreadSafeState.set_do_all (s : ThreadSafeState) (values : List ℤ) :
    Except String ThreadSafeState :=
  if values.length ≠ 4 then .error "Expected 4 values"
  else if ¬ values.all (fun v => v = 0 ∨ v = 1) then .error "All DO values must be 0 or 1"
  else .ok { s with do_ := values }

/-- The dictionary accepted by `ThreadSafeState.from_dict`; `none` marks
an absent key. -/
structure StateDict where
  di : Option (List ℤ)
  do_ : Option (List ℤ)
  simulation : Option Bool
  simulation_oled : Option Bool
  modbus : Option (List (String × Option ℤ))
deriving DecidableEq, Repr

/-- `ThreadSafeState.from_dict`: validate only the length (4) of supplied
`di`/`do` lists, then apply every supplied field. -/
def ThreadSafeState.from_dict (s : ThreadSafeState) (data : StateDict) :
    Except String ThreadSafeState :=
  if Option.any (fun l => l.length ≠ 4) data.di then .error "DI must have 4 values"
  else if Option.any (fun l => l.length ≠ 4) data.do_ then .error "DO must have 4 values"
  else .ok
    { di := data.di.getD s.di
      do_ := data.do_.getD s.do_
      simulation := data.simulation.getD s.simulation
      simulation_oled := data.simulation_oled.getD s.simulation_oled
      modbus := data.modbus.getD s.modbus }

/-- The invariant enforced by the four setters: every DI and DO element is
0 or 1. -/
def ThreadSafeState.binaryInvariant (s : ThreadSafeState) : Prop :=
  (∀ v ∈ s.di, v = 0 ∨ v = 1) ∧ (∀ v ∈ s.do_, v = 0 ∨ v = 1)

instance (s : ThreadSafeState) : Decidable s.binaryInvariant := by
  unfold ThreadSafeState.binaryInvariant
  infer_instance

/-! ## Modbus→MQTT bridge poll cycle

`api/app.py` imports `ModbusMQTTBridge` from
`efio_daemon.modbus_mqtt_bridge`, but that file defines only the
change-detecting CAN bridge above; the `ModbusMQTTBridge` class itself is
not in the source tree.  Its poll cycle is therefore modelled from the
specification (§4.6). -/

/-- A Modbus bridge mapping `{id, device_id, register, function_code,
topic, name, unit, enabled, scaling}`. -/
structure ModbusMapping where
  id : String
  device_id : String
  register : ℕ
  function_code : ℕ
  topic : String
  name : String
  unit : String
  enabled : Bool
  multiplier : ℚ
  offset : ℚ
  decimals : ℕ
deriving DecidableEq, Repr

/-- Rounding to `d` decimal places over the rationals (nearest value with
`d` decimals): the scaling step `round(value * multiplier + offset,
decimals)` of the specification. -/
def roundTo (x : ℚ) (d : ℕ) : ℚ :=
  ((round (x * 10 ^ d) : ℤ) : ℚ) / 10 ^ d

/-- One MQTT publish performed by the Modbus→MQTT bridge: the JSON payload
`{value, unit, timestamp}` on the mapping's topic, at the bridge's default
QoS, retained. -/
structure ModbusPublish where
  topic : String
  value : ℚ
  unit : String
  timestamp : String
  qos : ℕ
  retain : Bool
deriving DecidableEq, Repr

/-- Observable outcome of one poll cycle: the register reads issued
`(device_id, register, function_code)`, the publishes performed, and the
number of per-mapping errors (logged but not aborting the cycle). -/
structure ModbusCycleResult where
  reads : List (String × ℕ × ℕ)
  publishes : List ModbusPublish
  errors : ℕ
deriving DecidableEq, Repr

/-- Modelled from the spec: the per-cycle loop of the missing
`ModbusMQTTBridge` class (spec §4.6).  The cycle iterates the mappings in
order; for each enabled mapping whose target device is connected it reads
one register via FC3 or FC4 (`readReg device register fc`, `none` when
the read raises), applies the scaling
`round(value * multiplier + offset, decimals)` and publishes
`{value, unit, timestamp}` to the mapping's topic with the bridge QoS and
`retain = true`.  Per-mapping errors are counted and do not stop the
other mappings; a mapping whose function code is not 3 or 4 cannot be
read and is likewise counted as an error. -/
def modbusBridgePollCycle (connected : String → Bool)
    (readReg : String → ℕ → ℕ → Option ℕ) (qos : ℕ) (now : String)
    (mappings : List ModbusMapping) : ModbusCycleResult :=
  mappings.foldl
    (fun acc m =>
      if m.enabled && connected m.device_id then
        if m.function_code = 3 ∨ m.function_code = 4 then
          let acc := { acc with reads := acc.reads ++ [(m.device_id, m.register, m.function_code)] }
          match readReg m.device_id m.register m.function_code with
          | some v =>
            { acc with publishes := acc.publishes ++
                [⟨m.topic, roundTo ((v : ℚ) * m.multiplier + m.offset) m.decimals,
                  m.unit, now, qos, true⟩] }
          | none => { acc with errors := acc.errors + 1 }
        else { acc with errors := acc.errors + 1 }
      else acc)
    ⟨[], [], 0⟩

/-! ## Concrete fixtures used by counterexamples and witnesses -/

/-- State of `can_mqtt_bridge.CANMQTTBridge` right after `__init__`,
`load_mappings(mappings)` and a successful `start()`: MQTT connected,
per-mapping `last_publish` 0 and `message_counts` 0, all statistics 0. -/
def bridgeAStarted (mappings : List CANMapping) : BridgeAState :=
  { mqtt_connected := true, mappings := mappings
    last_publish := fun _ => 0, message_counts := fun _ => 0
    messages_received := 0, messages_published := 0, messages_dropped := 0
    publishes := [] }

/-- State of `modbus_mqtt_bridge.CANMQTTBridge` right after `__init__`,
`load_mappings(mappings)` and a successful `start()`: running, MQTT
connected, empty `last_values` and `last_publish_times`, zeroed
statistics. -/
def bridgeBStarted (mappings : List CANMapping) : BridgeBState :=
  { running := true, mqtt_connected := true, mappings := mappings
    last_values := fun _ => none, last_publish_times := fun _ => none
    stat_received := fun _ => 0, stat_published := fun _ => 0
    stat_last_seen := fun _ => none, publishes := [] }

/-- A CAN→MQTT mapping with `publish_on_change = True` and no rate limit,
as in spec §8 scenario 5. -/
def cexMapping : CANMapping :=
  { id := "map-001", name := "Engine ECU", can_id := 246
    topic := "vehicle/engine", enabled := true, publish_on_change := true
    rate_limit_ms := 0, min_interval_ms := 0, qos := 1 }

/-- First RX frame of the change-detection scenario (spec §8 scenario 5
data bytes). -/
def cexFrame0 : CANLogEntry :=
  { timestamp := "2026-01-01T00:00:00.000", can_id := 246, dlc := 8
    data := [0x8E, 0x87, 0x32, 0xFA, 0x26, 0x8E, 0xBE, 0x86], extended := false }

/-- Second RX frame: same CAN id and byte-identical data, later stamp. -/
def cexFrame1 : CANLogEntry :=
  { timestamp := "2026-01-01T00:00:00.050", can_id := 246, dlc := 8
    data := [0x8E, 0x87, 0x32, 0xFA, 0x26, 0x8E, 0xBE, 0x86], extended := false }

/-- Bitrate observation separating the implemented score from the claimed
one: candidate 125000 sees 12 clean messages, candidate 250000 sees 20
messages with 2 errors, every other candidate sees silence. -/
def cexBitrateObs : ℕ → Option (ℕ × ℕ) := fun b =>
  if b = 125000 then some (12, 0)
  else if b = 250000 then some (20, 2)
  else some (0, 0)

/-- An enabled CAN device with a 10-second timeout threshold, never seen
yet (spec §8 scenario 4 shape). -/
def witnessCANDevice : CANDevice :=
  { CANDevice.mk0 "dev-001" "Engine ECU" 246 with timeout_threshold := 10 }

/-- Liveness tracking state for `witnessCANDevice` at manager start. -/
def witnessLiveState : CANLivenessState :=
  { device := witnessCANDevice, device_timeouts := 0, breaker := none }

/-- A trace with two separated lapses: a frame at 0, an alive check at 5,
lapse checks at 15 and 20, a recovering frame at 25, an alive check at 26,
and a fresh lapse check at 40. -/
def witnessTrace : List CANEvent :=
  [.rxFrame 0, .livenessCheck 5, .livenessCheck 15, .livenessCheck 20,
   .rxFrame 25, .livenessCheck 26, .livenessCheck 40]

/-! # Theorems -/

/-- C10: for every CAN device whose `last_rx_time` is `None` (no frame
ever received), `is_alive()` returns `False`, regardless of its timeout
threshold and of the current time. -/
theorem is_alive_false_of_never_seen (d : CANDevice) (now : ℚ)
    (h : d.last_rx_time = none) : d.is_alive now = false := by
  simp [CANDevice.is_alive, h]

/-- Witness for C10 at a concrete freshly-registered device and time. -/
theorem is_alive_false_of_never_seen_witness :
    (CANDevice.mk0 "dev-001" "Engine ECU" 246).last_rx_time = none ∧
      (CANDevice.mk0 "dev-001" "Engine ECU" 246).is_alive 1000 = false :=
  ⟨rfl, is_alive_false_of_never_seen (CANDevice.mk0 "dev-001" "Engine ECU" 246) 1000 rfl⟩

/-- C7 counterexample: a registry whose components are all healthy or
unknown reports `degraded`, while the claimed rule (no unhealthy, no
degraded component) reports `healthy`. -/
theorem overall_status_unknown_cex :
    get_overall_status [("gpio", "healthy"), ("can", "unknown")] = "degraded" ∧
      specOverallStatus [("gpio", "healthy"), ("can", "unknown")] = "healthy" ∧
      ("degraded" : String) ≠ "healthy" := by
  refine ⟨rfl, rfl, ?_⟩
  decide

/-- C7 amended: for a non-empty registry the overall status is `healthy`
when every component is healthy, else `unhealthy` when some component is
unhealthy, else `degraded`; equivalently, `unhealthy` when some component
is unhealthy, else `healthy` only when all are healthy (so any `unknown`
or `degraded` component degrades the overall status). -/
theorem overall_status_characterization (components : List (String × String))
    (h : components ≠ []) :
    get_overall_status components =
      if components.any (fun c => c.2 = "unhealthy") then "unhealthy"
      else if components.all (fun c => c.2 = "healthy") then "healthy"
      else "degraded" := by
  have hne : components.isEmpty = false := by
    simpa [List.isEmpty_iff] using h
  by_cases hu : components.any (fun c => decide (c.2 = "unhealthy")) = true
  · have hall : components.all (fun c => decide (c.2 = "healthy")) = false := by
      rcases List.any_eq_true.mp hu with ⟨x, hx, hxu⟩
      rw [List.all_eq_false]
      refine ⟨x, hx, ?_⟩
      simp only [decide_eq_true_eq] at hxu
      simp [hxu]
    simp [get_overall_status, hne, hall, hu]
  · have hu' : components.any (fun c => decide (c.2 = "unhealthy")) = false :=
      Bool.eq_false_iff.mpr hu
    by_cases hall : components.all (fun c => decide (c.2 = "healthy")) = true
    · simp [get_overall_status, hne, hall, hu']
    · have hall' : components.all (fun c => decide (c.2 = "healthy")) = false :=
        Bool.eq_false_iff.mpr hall
      simp [get_overall_status, hne, hall', hu']

/-- Witness for C7 (amended) at a concrete two-component registry. -/
theorem overall_status_characterization_witness :
    get_overall_status [("modbus", "degraded"), ("can", "healthy")] = "degraded" := by
  have h := overall_status_characterization [("modbus", "degraded"), ("can", "healthy")]
    (by simp)
  simpa using h

/-- C9: the four setters preserve the binary DI/DO invariant, but
`from_dict` validates only the lengths of supplied `di`/`do` lists, so it
can succeed on a dict with non-binary elements and leave the state outside
the invariant: the invariant is not preserved by every public mutator. -/
theorem from_dict_skips_value_validation :
    (∀ (s : ThreadSafeState) (ch : ℕ) (v : ℤ) (s2 : ThreadSafeState),
        s.binaryInvariant → s.set_di ch v = .ok s2 → s2.binaryInvariant) ∧
    (∀ (s : ThreadSafeState) (ch : ℕ) (v : ℤ) (s2 : ThreadSafeState),
        s.binaryInvariant → s.set_do ch v = .ok s2 → s2.binaryInvariant) ∧
    (∀ (s : ThreadSafeState) (vs : List ℤ) (s2 : ThreadSafeState),
        s.binaryInvariant → s.set_di_all vs = .ok s2 → s2.binaryInvariant) ∧
    (∀ (s : ThreadSafeState) (vs : List ℤ) (s2 : ThreadSafeState),
        s.binaryInvariant → s.set_do_all vs = .ok s2 → s2.binaryInvariant) ∧
    (∃ (d : StateDict) (s2 : ThreadSafeState),
        ThreadSafeState.init.from_dict d = .ok s2 ∧ ¬ s2.binaryInvariant) := by
  refine ⟨?_, ?_, ?_, ?_, ?_⟩
  · intro s ch v s2 hinv hok
    unfold ThreadSafeState.set_di at hok
    split at hok
    · exact absurd hok (by simp)
    split at hok
    · exact absurd hok (by simp)
    rename_i hch hv
    rw [not_not] at hv
    cases hok
    refine ⟨?_, hinv.2⟩
    intro x hx
    rcases List.mem_or_eq_of_mem_set hx with hx' | rfl
    · exact hinv.1 x hx'
    · exact hv
  · intro s ch v s2 hinv hok
    unfold ThreadSafeState.set_do at hok
    split at hok
    · exact absurd hok (by simp)
    split at hok
    · exact absurd hok (by simp)
    rename_i hch hv
    rw [not_not] at hv
    cases hok
    refine ⟨hinv.1, ?_⟩
    intro x hx
    rcases List.mem_or_eq_of_mem_set hx with hx' | rfl
    · exact hinv.2 x hx'
    · exact hv
  · intro s vs s2 hinv hok
    unfold ThreadSafeState.set_di_all at hok
    split at hok
    · exact absurd hok (by simp)
    split at hok
    · exact absurd hok (by simp)
    rename_i hlen hall
    rw [not_not] at hall
    cases hok
    refine ⟨?_, hinv.2⟩
    intro x hx
    simpa using List.all_eq_true.mp hall x hx
  · intro s vs s2 hinv hok
    unfold ThreadSafeState.set_do_all at hok
    split at hok
    · exact absurd hok (by simp)
    split at hok
    · exact absurd hok (by simp)
    rename_i hlen hall
    rw [not_not] at hall
    cases hok
    refine ⟨hinv.1, ?_⟩
    intro x hx
    simpa using List.all_eq_true.mp hall x hx
  · refine ⟨⟨some [2, 0, 0, 0], none, none, none, none⟩,
      ⟨[2, 0, 0, 0], [0, 0, 0, 0], false, false,
        [("slave_id", some 1), ("last_register", none), ("last_value", none)]⟩, rfl, ?_⟩
    decide

/-- Witness for C9 at a concrete setter call from the initial state. -/
theorem from_dict_skips_value_validation_witness :
    ∃ s2 : ThreadSafeState,
      ThreadSafeState.init.set_di 0 1 = .ok s2 ∧ s2.binaryInvariant := by
  refine ⟨⟨[1, 0, 0, 0], [0, 0, 0, 0], false, false,
    [("slave_id", some 1), ("last_register", none), ("last_value", none)]⟩, rfl, ?_⟩
  exact from_dict_skips_value_validation.1 ThreadSafeState.init 0 1 _ (by decide) rfl

/-- A call through the wrapper while the breaker is not open executes the
guarded function; an expected failure runs `_on_failure`. -/
theorem callStep_not_open_fail (b : CircuitBreaker) (t : ℚ) (h : b.state ≠ .opened) :
    b.callStep t .errExpected = (.failureRaised, b.onFailure t) := by
  simp [CircuitBreaker.callStep, h, CircuitBreaker.execute]

/-- While the breaker is open and the timeout since the last failure has
not elapsed, any call is rejected without state change. -/
theorem callStep_open_fail_fast (b : CircuitBreaker) (t : ℚ) (o : CallOutcome) (lf : ℚ)
    (hs : b.state = .opened) (hl : b.last_failure_time = some lf)
    (ht : t < lf + b.timeout) :
    b.callStep t o = (.rejected, b) := by
  have hnr : ¬ (t - lf ≥ b.timeout) := by linarith
  simp [CircuitBreaker.callStep, hs, CircuitBreaker.shouldAttemptReset, hl, hnr]

/-- Folding consecutive expected failures through a closed breaker whose
remaining budget equals the list length yields the open breaker stamped
with the last failure time. -/
theorem runFailures_result (b : CircuitBreaker) (ts : List ℚ) (tl : ℚ)
    (hstate : b.state = .closed)
    (hlen : b.failure_count + ts.length = b.failure_threshold)
    (hlast : ts.getLast? = some tl) :
    b.runFailures ts =
      ⟨b.failure_threshold, b.timeout, b.failure_threshold, some tl, .opened⟩ := by
  induction ts generalizing b with
  | nil => simp at hlast
  | cons t rest ih =>
    have hstep : b.runFailures (t :: rest) = (b.onFailure t).runFailures rest := by
      simp only [CircuitBreaker.runFailures, List.foldl_cons]
      rw [callStep_not_open_fail b t (by rw [hstate]; intro hc; cases hc)]
    rw [hstep]
    cases rest with
    | nil =>
      have htl : t = tl := by simpa using hlast
      subst htl
      have hlen1 : b.failure_count + 1 = b.failure_threshold := by simpa using hlen
      have hthr : b.failure_threshold ≤ b.failure_count + 1 := by omega
      simp [CircuitBreaker.runFailures, CircuitBreaker.onFailure, hthr]
      omega
    | cons r rs =>
      have hlt : ¬ b.failure_threshold ≤ b.failure_count + 1 := by
        simp only [List.length_cons] at hlen; omega
      have hb1state : (b.onFailure t).state = .closed := by
        simp [CircuitBreaker.onFailure, hlt, hstate]
      have hb1len : (b.onFailure t).failure_count + (r :: rs).length = (b.onFailure t).failure_threshold := by
        simp only [CircuitBreaker.onFailure]
        simp at hlen ⊢
        omega
      have hb1last : (r :: rs).getLast? = some tl := by
        rw [← hlast, List.getLast?_cons_cons]
      have := ih (b.onFailure t) hb1state hb1len hb1last
      rw [this]
      simp [CircuitBreaker.onFailure]

/-- C4: after `failure_threshold` consecutive guarded calls fail with the
expected exception while the breaker is closed (fresh failure count), the
breaker is open with `last_failure_time` equal to the last failure, and
every subsequent guarded call — whatever its outcome would be — is
rejected immediately without invoking the guarded function, as long as
the call time is strictly before `last_failure_time + timeout`. -/
theorem breaker_opens_then_fails_fast (b : CircuitBreaker) (ts : List ℚ) (tl : ℚ)
    (hstate : b.state = .closed) (hcount : b.failure_count = 0)
    (hlen : ts.length = b.failure_threshold) (hlast : ts.getLast? = some tl) :
    (b.runFailures ts).state = .opened ∧
    (b.runFailures ts).last_failure_time = some tl ∧
    ∀ (t : ℚ) (o : CallOutcome), t < tl + b.timeout →
      (b.runFailures ts).callStep t o = (.rejected, b.runFailures ts) := by
  have hrun := runFailures_result b ts tl hstate (by omega) hlast
  rw [hrun]
  exact ⟨rfl, rfl, fun t o ht => callStep_open_fail_fast _ t o tl rfl rfl ht⟩

/-- Witness for C4: a breaker with threshold 3 and timeout 30, failed at
times 0, 1, 2, is open and rejects a call at time 10. -/
theorem breaker_opens_then_fails_fast_witness :
    ((CircuitBreaker.mk0 3 30).runFailures [0, 1, 2]).state = .opened ∧
    ((CircuitBreaker.mk0 3 30).runFailures [0, 1, 2]).callStep 10 .ok =
      (.rejected, (CircuitBreaker.mk0 3 30).runFailures [0, 1, 2]) := by
  have h := breaker_opens_then_fails_fast (CircuitBreaker.mk0 3 30) [0, 1, 2] 2
    rfl rfl (by decide) (by decide)
  exact ⟨h.1, h.2.2 10 .ok (by norm_num [CircuitBreaker.mk0])⟩

/-- When every attempt in scope raises the expected exception, the retry
loop performs every attempt, sleeps the damped exponential delays, and
re-raises the error of the final attempt. -/
theorem retryGo_all_expected {α ε : Type} (f : ℕ → AttemptResult α ε) (e : ℕ → ε)
    (maxD base : ℚ) :
    ∀ (remaining attempt : ℕ) (delay : ℚ),
      (∀ k, attempt ≤ k → k ≤ attempt + remaining → f k = .errExpected (e k)) →
      retryGo f maxD base attempt remaining delay =
        ⟨.raisedExpected (e (attempt + remaining)), remaining + 1,
          (List.range remaining).map fun i => min (delay * base ^ i) maxD⟩ := by
  intro remaining
  induction remaining with
  | zero =>
    intro attempt delay hf
    have h0 := hf attempt le_rfl (by omega)
    simp [retryGo, h0]
  | succ r ih =>
    intro attempt delay hf
    have h0 := hf attempt le_rfl (by omega)
    have hrec := ih (attempt + 1) (delay * base)
      (fun k hk1 hk2 => hf k (by omega) (by omega))
    simp only [retryGo, h0, hrec]
    have hidx : attempt + 1 + r = attempt + (r + 1) := by omega
    have hmap : (List.range (r + 1)).map (fun i => min (delay * base ^ i) maxD) =
        min delay maxD :: (List.range r).map (fun i => min (delay * base * base ^ i) maxD) := by
      rw [List.range_succ_eq_map, List.map_cons, List.map_map]
      have hfg : ((fun i => min (delay * base ^ i) maxD) ∘ Nat.succ) =
          fun i => min (delay * base * base ^ i) maxD := by
        funext i
        have : delay * base ^ (i + 1) = delay * base * base ^ i := by ring
        simp [Function.comp, this]
      rw [hfg]
      simp
    rw [hidx, hmap]

/-- A non-expected exception at some attempt propagates at once: one
invocation, no sleep. -/
theorem retryGo_fatal {α ε : Type} (f : ℕ → AttemptResult α ε) (maxD base : ℚ)
    (attempt remaining : ℕ) (delay : ℚ) (e0 : ε) (h : f attempt = .errFatal e0) :
    retryGo f maxD base attempt remaining delay = ⟨.raisedFatal e0, 1, []⟩ := by
  cases remaining <;> simp [retryGo, h]

/-- C8: a wrapped function failing with the expected exception on every
invocation is invoked exactly `max_retries + 1` times, with sleep
`min(initial_delay * base ^ attempt, max_delay)` between consecutive
attempts (attempt counted from 0), and the last error is re-raised after
the final attempt; a non-expected exception on the first invocation
propagates immediately, after exactly one invocation and no sleep. -/
theorem retry_with_backoff_contract {α ε : Type} (max_retries : ℕ)
    (initial_delay max_delay base : ℚ) (f : ℕ → AttemptResult α ε) :
    (∀ e : ℕ → ε, (∀ k, k ≤ max_retries → f k = .errExpected (e k)) →
      retry_with_backoff max_retries initial_delay max_delay base f =
        ⟨.raisedExpected (e max_retries), max_retries + 1,
          (List.range max_retries).map fun k => min (initial_delay * base ^ k) max_delay⟩) ∧
    (∀ e0 : ε, f 0 = .errFatal e0 →
      retry_with_backoff max_retries initial_delay max_delay base f =
        ⟨.raisedFatal e0, 1, []⟩) := by
  constructor
  · intro e hf
    have h := retryGo_all_expected f e max_delay base max_retries 0 initial_delay
      (fun k hk1 hk2 => hf k (by omega))
    simpa [retry_with_backoff] using h
  · intro e0 h0
    exact retryGo_fatal f max_delay base 0 max_retries initial_delay e0 h0

/-- Witness for C8: three always-failing attempts with `max_retries = 2`,
initial delay 1, base 2, max delay 30: three invocations, sleeps 1 and 2,
and the error of attempt 2 re-raised. -/
theorem retry_with_backoff_contract_witness :
    retry_with_backoff 2 1 30 2 (fun k => (AttemptResult.errExpected k : AttemptResult ℕ ℕ)) =
      ⟨.raisedExpected 2, 3, [1, 2]⟩ := by
  have h := (retry_with_backoff_contract 2 1 30 2
    (fun k => (AttemptResult.errExpected k : AttemptResult ℕ ℕ))).1 (fun k => k)
    (fun k hk => rfl)
  have h2 : ((List.range 2).map fun k => min ((1 : ℚ) * 2 ^ k) 30) = [1, 2] := by
    rw [show List.range 2 = [0, 1] from rfl]
    norm_num [min_def]
  rw [h, h2]

/-- C3 counterexample: from a connected device with a fresh breaker
(threshold 3, timeout 30), four consecutive reads whose transactions all
fail with `NoResponseError` answer 500, 400, 400, 400 — not the claimed
500, 500, 500, 503 — because the first failure's cleanup removes the
session and resets the breaker. -/
theorem modbus_read_breaker_cex :
    ((readSequence ⟨CircuitBreaker.mk0 3 30, true, some "2026-01-01T00:00:00"⟩
        [(0, .error .noResponse), (1, .error .noResponse),
         (2, .error .noResponse), (3, .error .noResponse)]).1 =
      [⟨500, some "NoResponse", []⟩, ⟨400, none, []⟩, ⟨400, none, []⟩, ⟨400, none, []⟩]) ∧
    ((readSequence ⟨CircuitBreaker.mk0 3 30, true, some "2026-01-01T00:00:00"⟩
        [(0, .error .noResponse), (1, .error .noResponse),
         (2, .error .noResponse), (3, .error .noResponse)]).1.map ReadResponse.status ≠
      [500, 500, 500, 503]) := by
  constructor
  · decide
  · decide

/-- C3 amended: a read whose transaction fails on a connected device with
a non-open breaker answers 500 with the classified error type and leaves
the device disconnected with its breaker reset (closed, zero failures);
thereafter any read on a disconnected device with a non-open breaker
answers 400 `Device not connected` unchanged — so consecutive failing
reads never open the breaker and never reach 503. -/
theorem modbus_read_failure_cleanup (s : ModbusRouteState) (t : ℚ) (e : ModbusExc)
    (hconn : s.connected = true) (hopen : s.breaker.state ≠ .opened) :
    (read_registers s t (.error e) =
      (⟨500, some (classify_error e), []⟩, ⟨s.breaker.reset, false, none⟩)) ∧
    ∀ (s2 : ModbusRouteState) (t2 : ℚ) (a : Except ModbusExc (List (ℕ × ℕ))),
      s2.connected = false → s2.breaker.state ≠ .opened →
      read_registers s2 t2 a = (⟨400, none, []⟩, s2) := by
  constructor
  · have hcall : (s.breaker.callStep t .errExpected).2 = s.breaker.onFailure t := by
      rw [callStep_not_open_fail s.breaker t hopen]
    simp [read_registers, hopen, hconn, cleanup_connection, hcall,
      CircuitBreaker.reset, CircuitBreaker.onFailure]
  · intro s2 t2 a hc2 ho2
    simp [read_registers, ho2, hc2]

/-- Witness for C3 (amended) at a concrete connected device and failing
transaction. -/
theorem modbus_read_failure_cleanup_witness :
    read_registers ⟨CircuitBreaker.mk0 3 30, true, some "2026-01-01T00:00:00"⟩ 0
        (.error .noResponse) =
      (⟨500, some "NoResponse", []⟩, ⟨(CircuitBreaker.mk0 3 30).reset, false, none⟩) := by
  exact (modbus_read_failure_cleanup ⟨CircuitBreaker.mk0 3 30, true, some "2026-01-01T00:00:00"⟩
    0 .noResponse rfl (by decide)).1

/-- One detection step either keeps the accumulator or selects the
current candidate: the latter exactly when its observation exists, has at
least 10 messages, and scores strictly above the current best. -/
theorem detectStep_cases (score : ℕ → ℕ → ℚ) (obs : ℕ → Option (ℕ × ℕ))
    (acc : Option ℕ × ℚ) (c : ℕ) :
    detectStep score obs acc c = acc ∨
    ∃ m e, obs c = some (m, e) ∧ 10 ≤ m ∧ score m e > acc.2 ∧
      detectStep score obs acc c = (some c, score m e) := by
  unfold detectStep
  cases h : obs c with
  | none => exact Or.inl rfl
  | some p =>
    obtain ⟨m, e⟩ := p
    by_cases hcond : score m e > acc.2 ∧ 10 ≤ m
    · exact Or.inr ⟨m, e, rfl, hcond.2, hcond.1, by simp [hcond]⟩
    · simp [hcond]

/-- The running best quality never decreases. -/
theorem detectStep_mono (score : ℕ → ℕ → ℚ) (obs : ℕ → Option (ℕ × ℕ))
    (acc : Option ℕ × ℚ) (c : ℕ) :
    acc.2 ≤ (detectStep score obs acc c).2 := by
  rcases detectStep_cases score obs acc c with h | ⟨m, e, _, _, hgt, h⟩
  · rw [h]
  · rw [h]; exact le_of_lt hgt

/-- After its own step, an eligible candidate's score is bounded by the
running best. -/
theorem detectStep_head_le (score : ℕ → ℕ → ℚ) (obs : ℕ → Option (ℕ × ℕ))
    (acc : Option ℕ × ℚ) (c mc ec : ℕ)
    (hobs : obs c = some (mc, ec)) (h10 : 10 ≤ mc) :
    score mc ec ≤ (detectStep score obs acc c).2 := by
  unfold detectStep
  rw [hobs]
  by_cases hcond : score mc ec > acc.2 ∧ 10 ≤ mc
  · simp [hcond]
  · have hle : score mc ec ≤ acc.2 := le_of_not_lt fun hgt => hcond ⟨hgt, h10⟩
    simpa [hcond] using hle

/-- Folding the detection step cannot lower the best quality. -/
theorem detectFold_mono (score : ℕ → ℕ → ℚ) (obs : ℕ → Option (ℕ × ℕ)) :
    ∀ (L : List ℕ) (acc : Option ℕ × ℚ),
      acc.2 ≤ (L.foldl (detectStep score obs) acc).2 := by
  intro L
  induction L with
  | nil => intro acc; simp
  | cons c L ih =>
    intro acc
    calc acc.2 ≤ (detectStep score obs acc c).2 := detectStep_mono score obs acc c
    _ ≤ _ := by simpa using ih (detectStep score obs acc c)

/-- The final best quality dominates the score of every eligible
candidate of the list. -/
theorem detectFold_ub (score : ℕ → ℕ → ℚ) (obs : ℕ → Option (ℕ × ℕ)) :
    ∀ (L : List ℕ) (acc : Option ℕ × ℚ) (c : ℕ), c ∈ L →
      ∀ mc ec, obs c = some (mc, ec) → 10 ≤ mc →
        score mc ec ≤ (L.foldl (detectStep score obs) acc).2 := by
  intro L
  induction L with
  | nil => intro acc c hc; cases hc
  | cons hd L ih =>
    intro acc c hc mc ec hobs h10
    rcases List.mem_cons.mp hc with rfl | hmem
    · calc score mc ec ≤ (detectStep score obs acc c).2 :=
        detectStep_head_le score obs acc c mc ec hobs h10
      _ ≤ _ := by simpa using detectFold_mono score obs L (detectStep score obs acc c)
    · simpa using ih (detectStep score obs acc hd) c hmem mc ec hobs h10

/-- When the fold ends with a selected candidate, either the accumulator
already held it untouched, or the candidate comes from the list, is
eligible, and the final best quality is its score. -/
theorem detectFold_some (score : ℕ → ℕ → ℚ) (obs : ℕ → Option (ℕ × ℕ)) :
    ∀ (L : List ℕ) (acc : Option ℕ × ℚ) (b : ℕ),
      (L.foldl (detectStep score obs) acc).1 = some b →
      (acc.1 = some b ∧ (L.foldl (detectStep score obs) acc).2 = acc.2) ∨
      (b ∈ L ∧ ∃ m e, obs b = some (m, e) ∧ 10 ≤ m ∧
        (L.foldl (detectStep score obs) acc).2 = score m e) := by
  intro L
  induction L with
  | nil => intro acc b hb; exact Or.inl ⟨hb, rfl⟩
  | cons hd L ih =>
    intro acc b hb
    rw [List.foldl_cons] at hb
    rcases ih (detectStep score obs acc hd) b hb with ⟨hsel, hq⟩ | ⟨hmem, m, e, hobs, h10, hq⟩
    · rcases detectStep_cases score obs acc hd with hkeep | ⟨m, e, hobs, h10, hgt, hsel'⟩
      · refine Or.inl ⟨?_, ?_⟩
        · rw [hkeep] at hsel; exact hsel
        · rw [List.foldl_cons, hq, hkeep]
      · rw [hsel'] at hsel
        simp only [Option.some.injEq] at hsel
        cases hsel
        refine Or.inr ⟨List.mem_cons_self hd L, m, e, hobs, h10, ?_⟩
        rw [List.foldl_cons, hq, hsel']
    · refine Or.inr ⟨List.mem_cons_of_mem hd hmem, m, e, hobs, h10, ?_⟩
      rw [List.foldl_cons, hq]

/-- C6 amended: the quality score actually computed for a candidate over
the 5-second window is `msgs * (msgs / 5) - 5 * errors` (that is,
`msgs² / 5 - 5 * errors`), not `msgs - 5 * errors`; with that score, a
reported bitrate is a candidate with an observation of at least 10
messages whose score exceeds 5 and is maximal among all eligible
candidates; and when every eligible candidate scores at most 5 the
detection reports `detected = false`. -/
theorem detect_bitrate_characterization (obs : ℕ → Option (ℕ × ℕ)) :
    (∀ b, detect_bitrate obs = some b →
      b ∈ test_bitrates ∧ ∃ m e, obs b = some (m, e) ∧ 10 ≤ m ∧
        bitrateQuality m e > 5 ∧
        ∀ c ∈ test_bitrates, ∀ mc ec, obs c = some (mc, ec) → 10 ≤ mc →
          bitrateQuality mc ec ≤ bitrateQuality m e) ∧
    ((∀ c ∈ test_bitrates, ∀ mc ec, obs c = some (mc, ec) → 10 ≤ mc →
        bitrateQuality mc ec ≤ 5) → detect_bitrate obs = none) := by
  constructor
  · intro b hb
    unfold detect_bitrate detectResult at hb
    split at hb
    · rename_i hcond
      rcases detectFold_some bitrateQuality obs test_bitrates (none, 0) b hb
        with ⟨hnone, _⟩ | ⟨hmem, m, e, hobs, h10, hq⟩
      · cases hnone
      · refine ⟨hmem, m, e, hobs, h10, ?_, ?_⟩
        · have hq' : (detectFold bitrateQuality obs).2 = bitrateQuality m e := hq
          have h5 := hcond.2
          rw [hq'] at h5
          exact h5
        · intro c hc mc ec hobsc h10c
          have hub : bitrateQuality mc ec ≤ (detectFold bitrateQuality obs).2 :=
            detectFold_ub bitrateQuality obs test_bitrates (none, 0) c hc mc ec hobsc h10c
          have hq' : (detectFold bitrateQuality obs).2 = bitrateQuality m e := hq
          rw [hq'] at hub
          exact hub
    · cases hb
  · intro hall
    unfold detect_bitrate detectResult
    split
    · rename_i hcond
      obtain ⟨hsome, hq5⟩ := hcond
      obtain ⟨b, hb⟩ := Option.isSome_iff_exists.mp hsome
      rcases detectFold_some bitrateQuality obs test_bitrates (none, 0) b hb
        with ⟨hnone, _⟩ | ⟨hmem, m, e, hobs, h10, hq⟩
      · cases hnone
      · have hle := hall b hmem m e hobs h10
        have hq' : (detectFold bitrateQuality obs).2 = bitrateQuality m e := hq
        rw [hq'] at hq5
        exact absurd hq5 (not_lt.mpr hle)
    · rfl

/-- Witness for C6 (amended): with an all-silent bus no candidate is
eligible and detection reports `detected = false`. -/
theorem detect_bitrate_characterization_witness :
    detect_bitrate (fun _ => some (0, 0)) = none := by
  refine (detect_bitrate_characterization (fun _ => some (0, 0))).2 ?_
  intro c hc mc ec hobs h10
  simp only [Option.some.injEq, Prod.mk.injEq] at hobs
  omega

/-- C6 counterexample: with candidate 125000 observing 12 clean messages
and candidate 250000 observing 20 messages with 2 errors, the implemented
scoring (28.8 against 70) selects 250000, while the claimed scoring
`messages - 5 * errors` (12 against 10) would select 125000. -/
theorem detect_bitrate_score_cex :
    detect_bitrate cexBitrateObs = some 250000 ∧
    claimDetectBitrate cexBitrateObs = some 125000 ∧
    (some 250000 : Option ℕ) ≠ some 125000 := by
  refine ⟨?_, ?_, by decide⟩
  · norm_num [detect_bitrate, detectResult, detectFold, test_bitrates, detectStep,
      cexBitrateObs, bitrateQuality]
  · norm_num [claimDetectBitrate, detectResult, detectFold, test_bitrates, detectStep,
      cexBitrateObs, claimQuality]

/-- Handling a device timeout leaves the counter unchanged when the lapse
was already logged and increments it once otherwise. -/
theorem handleDeviceTimeout_timeouts (s : CANLivenessState) (t : ℚ) :
    (handleDeviceTimeout s t).device_timeouts =
      if s.device.timeoutLogged then s.device_timeouts else s.device_timeouts + 1 := by
  unfold handleDeviceTimeout
  by_cases h : s.device.timeoutLogged <;> simp [h]

/-- Handling a device timeout always leaves the logged flag set. -/
theorem handleDeviceTimeout_flag (s : CANLivenessState) (t : ℚ) :
    (handleDeviceTimeout s t).device.timeoutLogged = true := by
  unfold handleDeviceTimeout
  by_cases h : s.device.timeoutLogged <;> simp [h]

/-- A frame event changes neither the global timeout counter nor the
logged flag. -/
theorem canLivenessStep_frame_counters (s : CANLivenessState) (t : ℚ) :
    (canLivenessStep s (.rxFrame t)).device_timeouts = s.device_timeouts ∧
    (canLivenessStep s (.rxFrame t)).device.timeoutLogged = s.device.timeoutLogged := by
  unfold canLivenessStep
  by_cases h : s.device.enabled <;> simp [h]

/-- Edge-counting invariant of the liveness loop: over any event trace the
`device_timeouts` counter grows by exactly the number of maximal
contiguous blocks of timeout observations, relative to the current logged
flag. -/
theorem canLiveness_count (es : List CANEvent) :
    ∀ s : CANLivenessState,
      (canLivenessRun s es).device_timeouts =
        s.device_timeouts + trueRunsFrom s.device.timeoutLogged (lapseObsSeq s es) := by
  induction es with
  | nil => intro s; simp [canLivenessRun, lapseObsSeq, trueRunsFrom]
  | cons e es ih =>
    intro s
    have hrun : canLivenessRun s (e :: es) = canLivenessRun (canLivenessStep s e) es := by
      simp [canLivenessRun]
    rw [hrun]
    cases e with
    | rxFrame t =>
      have hobs : lapseObs s (.rxFrame t) = none := rfl
      rw [show lapseObsSeq s (CANEvent.rxFrame t :: es) =
          lapseObsSeq (canLivenessStep s (.rxFrame t)) es from by
        rw [lapseObsSeq, hobs]]
      rw [ih (canLivenessStep s (.rxFrame t))]
      rw [(canLivenessStep_frame_counters s t).1, (canLivenessStep_frame_counters s t).2]
    | livenessCheck t =>
      by_cases hen : s.device.enabled = true
      · cases hrx : s.device.last_rx_time with
        | none =>
          have hobs : lapseObs s (.livenessCheck t) = none := by
            simp [lapseObs, hen, hrx]
          have hstep : canLivenessStep s (.livenessCheck t) = s := by
            simp [canLivenessStep, hen, hrx]
          rw [show lapseObsSeq s (CANEvent.livenessCheck t :: es) =
              lapseObsSeq (canLivenessStep s (.livenessCheck t)) es from by
            rw [lapseObsSeq, hobs]]
          rw [hstep, ih s]
        | some r =>
          by_cases hlapse : t - r > s.device.timeout_threshold
          · have hobs : lapseObs s (.livenessCheck t) = some true := by
              simp [lapseObs, hen, hrx, hlapse]
            have hstep : canLivenessStep s (.livenessCheck t) = handleDeviceTimeout s t := by
              simp [canLivenessStep, hen, hrx, hlapse]
            rw [show lapseObsSeq s (CANEvent.livenessCheck t :: es) =
                true :: lapseObsSeq (canLivenessStep s (.livenessCheck t)) es from by
              rw [lapseObsSeq, hobs]]
            rw [hstep, ih (handleDeviceTimeout s t), handleDeviceTimeout_timeouts,
              handleDeviceTimeout_flag]
            cases hflag : s.device.timeoutLogged with
            | true => simp [trueRunsFrom, hflag]
            | false => simp [trueRunsFrom, hflag]; omega
          · have hobs : lapseObs s (.livenessCheck t) = some false := by
              simp [lapseObs, hen, hrx, hlapse]
            have hstep : canLivenessStep s (.livenessCheck t) =
                { s with device := { s.device with timeoutLogged := false } } := by
              simp [canLivenessStep, hen, hrx, hlapse]
            rw [show lapseObsSeq s (CANEvent.livenessCheck t :: es) =
                false :: lapseObsSeq (canLivenessStep s (.livenessCheck t)) es from by
              rw [lapseObsSeq, hobs]]
            rw [hstep, ih]
            simp [trueRunsFrom]
      · have hen' : s.device.enabled = false := Bool.eq_false_iff.mpr hen
        have hobs : lapseObs s (.livenessCheck t) = none := by
          simp [lapseObs, hen']
        have hstep : canLivenessStep s (.livenessCheck t) = s := by
          simp [canLivenessStep, hen']
        rw [show lapseObsSeq s (CANEvent.livenessCheck t :: es) =
            lapseObsSeq (canLivenessStep s (.livenessCheck t)) es from by
          rw [lapseObsSeq, hobs]]
        rw [hstep, ih s]

/-- C5: starting from a device whose lapse flag is clear, the global
`device_timeouts` counter grows by exactly the number of maximal
contiguous blocks of liveness checks that observe the device timed out
(`now - last_rx_time > timeout_threshold`): repeated checks inside one
lapse add nothing.  Moreover a received frame re-arms the counting: after
a frame at time `tf`, a liveness check at any time `tc` with
`tc - tf ≤ timeout_threshold` observes the device alive, closing the
current block, so the next observed lapse is counted again. -/
theorem device_timeouts_once_per_lapse (s : CANLivenessState) (es : List CANEvent)
    (hflag : s.device.timeoutLogged = false) :
    ((canLivenessRun s es).device_timeouts =
      s.device_timeouts + trueRuns (lapseObsSeq s es)) ∧
    ∀ (s2 : CANLivenessState) (tf tc : ℚ), s2.device.enabled = true →
      tc - tf ≤ s2.device.timeout_threshold →
      lapseObs (canLivenessStep s2 (.rxFrame tf)) (.livenessCheck tc) = some false := by
  constructor
  · rw [canLiveness_count es s, hflag, trueRuns]
  · intro s2 tf tc hen hle
    have hstep : (canLivenessStep s2 (.rxFrame tf)).device.last_rx_time = some tf := by
      simp [canLivenessStep, hen]
    have hen2 : (canLivenessStep s2 (.rxFrame tf)).device.enabled = true := by
      simp [canLivenessStep, hen]
    have hth : (canLivenessStep s2 (.rxFrame tf)).device.timeout_threshold =
        s2.device.timeout_threshold := by
      simp [canLivenessStep, hen]
    have hnl : ¬ tc - tf > (canLivenessStep s2 (.rxFrame tf)).device.timeout_threshold := by
      rw [hth]; exact not_lt.mpr hle
    simp [lapseObs, hen2, hstep, hnl]

/-- Witness for C5: over the two-lapse trace the counter ends at exactly
2 — the checks at 15 and 20 share one lapse, the frame at 25 re-arms, and
the check at 40 opens the second counted lapse. -/
theorem device_timeouts_once_per_lapse_witness :
    (canLivenessRun witnessLiveState witnessTrace).device_timeouts = 2 := by
  have h := (device_timeouts_once_per_lapse witnessLiveState witnessTrace rfl).1
  rw [h]
  norm_num [witnessLiveState, witnessCANDevice, witnessTrace, lapseObsSeq, lapseObs,
    canLivenessStep, handleDeviceTimeout, trueRuns, trueRunsFrom, CANDevice.mk0,
    CircuitBreaker.mk0, CircuitBreaker.onFailure, CircuitBreaker.onSuccess]

/-- C1 counterexample: the CAN→MQTT bridge instantiated by
`api.app.init_can_mqtt_bridge` (`efio_daemon/can_mqtt_bridge.py`) performs
no change detection — delivering two consecutive frames with the same CAN
id and byte-identical data to a freshly started bridge holding one
mapping with `publish_on_change = True` (and no rate limit) yields two
MQTT publishes, not one. -/
theorem can_bridge_no_change_detection_cex :
    (bridgeA_on_can_message (bridgeA_on_can_message (bridgeAStarted [cexMapping]) 0 cexFrame0)
        1 cexFrame1).messages_published = 2 ∧ (2 : ℕ) ≠ 1 := by
  constructor
  · norm_num [bridgeA_on_can_message, bridgeAStarted, cexMapping, cexFrame0, cexFrame1,
      bridgeA_process_mapping, bridgeA_should_publish]
  · decide

/-- C1 amended: the change-detecting bridge class
(`modbus_mqtt_bridge.CANMQTTBridge`) does behave as claimed: from a
freshly started bridge holding one enabled mapping with
`publish_on_change = true`, two consecutive RX frames with the mapping's
CAN id and byte-identical data produce exactly one MQTT publish, the
second frame being dropped because its data hex equals the mapping's last
published value. -/
theorem bridgeB_change_detection (m : CANMapping) (msg1 msg2 : CANLogEntry) (t1 t2 : ℚ)
    (hen : m.enabled = true) (hpoc : m.publish_on_change = true)
    (hid1 : msg1.can_id = m.can_id) (hid2 : msg2.can_id = m.can_id)
    (hdata : msg2.data = msg1.data) (hdlc : msg2.dlc = msg1.dlc)
    (hrate : m.min_interval_ms / 1000 ≤ t1) :
    (bridgeB_on_can_message (bridgeB_on_can_message (bridgeBStarted [m]) t1 msg1) t2
        msg2).stat_published m.id = 1 ∧
    (bridgeB_on_can_message (bridgeB_on_can_message (bridgeBStarted [m]) t1 msg1) t2
        msg2).publishes.length = 1 ∧
    (bridgeB_on_can_message (bridgeBStarted [m]) t1 msg1).last_values m.id =
      some (dataHexOf msg2) := by
  have hhex : dataHexOf msg2 = dataHexOf msg1 := by
    unfold dataHexOf
    rw [hdata, hdlc]
  have hnlt : ¬ (t1 - (0 : ℚ) < m.min_interval_ms / 1000) := by
    rw [sub_zero]
    exact not_lt.mpr hrate
  have hcond : ¬ (0 < m.min_interval_ms ∧ t1 < m.min_interval_ms / 1000) := by
    rintro ⟨-, hlt⟩
    exact absurd hlt (not_lt.mpr hrate)
  simp [bridgeB_on_can_message, bridgeBStarted, bridgeB_process_mapping,
    bridgeB_should_publish, hen, hpoc, hid1, hid2, hhex, hnlt, hcond]

/-- Witness for C1 (amended) at the concrete mapping and frames of the
scenario. -/
theorem bridgeB_change_detection_witness :
    (bridgeB_on_can_message (bridgeB_on_can_message (bridgeBStarted [cexMapping]) 0 cexFrame0)
        1 cexFrame1).stat_published cexMapping.id = 1 := by
  exact (bridgeB_change_detection cexMapping cexFrame0 cexFrame1 0 1 rfl rfl rfl rfl rfl rfl
    (by norm_num [cexMapping])).1

/-- Accumulator-generalised shape of the Modbus→MQTT poll cycle: the
reads are the enabled, connected, FC3/FC4 mappings in order, and the
publishes are the scaled values of those whose read succeeded. -/
theorem modbusCycleFold_shape (connected : String → Bool)
    (readReg : String → ℕ → ℕ → Option ℕ) (qos : ℕ) (now : String) :
    ∀ (L : List ModbusMapping) (acc : ModbusCycleResult),
      (L.foldl
        (fun acc m =>
          if m.enabled && connected m.device_id then
            if m.function_code = 3 ∨ m.function_code = 4 then
              let acc := { acc with
                reads := acc.reads ++ [(m.device_id, m.register, m.function_code)] }
              match readReg m.device_id m.register m.function_code with
              | some v =>
                { acc with publishes := acc.publishes ++
                    [⟨m.topic, roundTo ((v : ℚ) * m.multiplier + m.offset) m.decimals,
                      m.unit, now, qos, true⟩] }
              | none => { acc with errors := acc.errors + 1 }
            else { acc with errors := acc.errors + 1 }
          else acc) acc).reads =
        acc.reads ++ (L.filter fun m => m.enabled && connected m.device_id &&
          (m.function_code == 3 || m.function_code == 4)).map
          (fun m => (m.device_id, m.register, m.function_code)) ∧
      (L.foldl
        (fun acc m =>
          if m.enabled && connected m.device_id then
            if m.function_code = 3 ∨ m.function_code = 4 then
              let acc := { acc with
                reads := acc.reads ++ [(m.device_id, m.register, m.function_code)] }
              match readReg m.device_id m.register m.function_code with
              | some v =>
                { acc with publishes := acc.publishes ++
                    [⟨m.topic, roundTo ((v : ℚ) * m.multiplier + m.offset) m.decimals,
                      m.unit, now, qos, true⟩] }
              | none => { acc with errors := acc.errors + 1 }
            else { acc with errors := acc.errors + 1 }
          else acc) acc).publishes =
        acc.publishes ++ (L.filter fun m => m.enabled && connected m.device_id &&
          (m.function_code == 3 || m.function_code == 4)).filterMap
          (fun m => (readReg m.device_id m.register m.function_code).map
            (fun v => ⟨m.topic, roundTo ((v : ℚ) * m.multiplier + m.offset) m.decimals,
              m.unit, now, qos, true⟩)) := by
  intro L
  induction L with
  | nil => intro acc; simp
  | cons m L ih =>
    intro acc
    by_cases hec : m.enabled && connected m.device_id
    · by_cases hfc : m.function_code = 3 ∨ m.function_code = 4
      · have hfil : (m.enabled && connected m.device_id &&
            (m.function_code == 3 || m.function_code == 4)) = true := by
          rcases hfc with h3 | h4
          · simp [hec, h3]
          · simp [hec, h4]
        cases hread : readReg m.device_id m.register m.function_code with
        | some v =>
          have := ih { acc with
            reads := acc.reads ++ [(m.device_id, m.register, m.function_code)]
            publishes := acc.publishes ++
              [⟨m.topic, roundTo ((v : ℚ) * m.multiplier + m.offset) m.decimals,
                m.unit, now, qos, true⟩] }
          constructor
          · rw [List.foldl_cons]
            simp only [hec, if_true, hfc, hread]
            rw [this.1]
            simp [List.filter_cons, hfil]
          · rw [List.foldl_cons]
            simp only [hec, if_true, hfc, hread]
            rw [this.2]
            simp [List.filter_cons, hfil, hread]
        | none =>
          have := ih { acc with
            reads := acc.reads ++ [(m.device_id, m.register, m.function_code)]
            errors := acc.errors + 1 }
          constructor
          · rw [List.foldl_cons]
            simp only [hec, if_true, hfc, hread]
            rw [this.1]
            simp [List.filter_cons, hfil]
          · rw [List.foldl_cons]
            simp only [hec, if_true, hfc, hread]
            rw [this.2]
            simp [List.filter_cons, hfil, hread]
      · have hfil : (m.enabled && connected m.device_id &&
            (m.function_code == 3 || m.function_code == 4)) = false := by
          push_neg at hfc
          simp [hfc.1, hfc.2]
        have := ih { acc with errors := acc.errors + 1 }
        constructor
        · rw [List.foldl_cons]
          simp only [hec, if_true, hfc, if_false]
          rw [this.1]
          simp [List.filter_cons, hfil]
        · rw [List.foldl_cons]
          simp only [hec, if_true, hfc, if_false]
          rw [this.2]
          simp [List.filter_cons, hfil]
    · have hec' : (m.enabled && connected m.device_id) = false := by
        simpa using hec
      have hfil : (m.enabled && connected m.device_id &&
          (m.function_code == 3 || m.function_code == 4)) = false := by
        simp [hec']
      have := ih acc
      constructor
      · rw [List.foldl_cons]
        simp only [hec', Bool.false_eq_true, if_false]
        rw [this.1]
        simp [List.filter_cons, hfil]
      · rw [List.foldl_cons]
        simp only [hec', Bool.false_eq_true, if_false]
        rw [this.2]
        simp [List.filter_cons, hfil]

/-- C2 (modelled from the spec, `ModbusMQTTBridge` being absent from the
source tree): in every poll cycle the bridge issues exactly one FC3/FC4
register read per enabled mapping whose target device is connected, in
mapping order, and for each successful read publishes exactly one payload
`{value, unit, timestamp}` with `value = round(raw * multiplier + offset,
decimals)` on the mapping's topic at the bridge QoS with retain = true;
failed reads are counted as errors without stopping the cycle. -/
theorem modbus_bridge_cycle_contract (connected : String → Bool)
    (readReg : String → ℕ → ℕ → Option ℕ) (qos : ℕ) (now : String)
    (mappings : List ModbusMapping) :
    (modbusBridgePollCycle connected readReg qos now mappings).reads =
      (mappings.filter fun m => m.enabled && connected m.device_id &&
        (m.function_code == 3 || m.function_code == 4)).map
        (fun m => (m.device_id, m.register, m.function_code)) ∧
    (modbusBridgePollCycle connected readReg qos now mappings).publishes =
      (mappings.filter fun m => m.enabled && connected m.device_id &&
        (m.function_code == 3 || m.function_code == 4)).filterMap
        (fun m => (readReg m.device_id m.register m.function_code).map
          (fun v => ⟨m.topic, roundTo ((v : ℚ) * m.multiplier + m.offset) m.decimals,
            m.unit, now, qos, true⟩)) := by
  obtain ⟨h1, h2⟩ := modbusCycleFold_shape connected readReg qos now mappings ⟨[], [], 0⟩
  rw [List.nil_append] at h1 h2
  exact ⟨h1, h2⟩

end EFIO
